import Mathlib

/-!
Verification of the schema-inference and time-window filtering core of
`historical_data.py` (a Streamlit dashboard over user-uploaded CSV data).

The Python source is shallowly embedded: tables are lists of header strings
paired with lists of rows, Python's substring test `kw in col.lower()` is an
executable containment check on character lists, pandas per-value datetime
coercion (`pd.to_datetime(..., errors="coerce")` followed by `dropna`) is an
abstract per-cell parser `String → Option DT`, and numeric coercion of
latitude/longitude (`pd.to_numeric(..., errors="coerce")`) is an abstract
per-cell parser `String → Option Rat`.
-/

namespace HistData

/-- ASCII lowercasing of one character, the embedding of Python's
`str.lower` on the ASCII range (all keyword matching in the source is over
ASCII header text). -/
def lowerChar (c : Char) : Char :=
  if 65 ≤ c.toNat ∧ c.toNat ≤ 90 then Char.ofNat (c.toNat + 32) else c

/-- Embedding of `col.lower()`. -/
def pyLower (s : String) : String :=
  ⟨s.data.map lowerChar⟩

/-- `leadsWith needle hay` is true when `needle` occurs at the start of
`hay` (character-list prefix test, the base case of Python's `in`). -/
def leadsWith : List Char → List Char → Bool
  | [], _ => true
  | _ :: _, [] => false
  | a :: as, b :: bs => a == b && leadsWith as bs

/-- `hasSub needle hay` is true when `needle` occurs contiguously inside
`hay`: the embedding of Python's substring operator `needle in hay`. -/
def hasSub (needle : List Char) : List Char → Bool
  | [] => leadsWith needle []
  | c :: rest => leadsWith needle (c :: rest) || hasSub needle rest

/-- Embedding of Python's `kw in s` on strings. -/
def strContainsSub (s kw : String) : Bool :=
  hasSub kw.data s.data

/-- The volume keyword list of `detect_traffic_volume_columns`
(src line 32). -/
def volumeKeywords : List String :=
  ["traffic_volume", "volume", "traffic", "count"]

/-- The datetime keyword list of `detect_datetime_column` (src line 37). -/
def datetimeKeywords : List String :=
  ["datetime", "date_time", "timestamp", "date"]

/-- `any(keyword in col.lower() for keyword in keywords)` for the volume
keyword list. -/
def isVolumeName (col : String) : Bool :=
  volumeKeywords.any (fun kw => strContainsSub (pyLower col) kw)

/-- `any(keyword in col.lower() for keyword in keywords)` for the datetime
keyword list. -/
def isDatetimeName (col : String) : Bool :=
  datetimeKeywords.any (fun kw => strContainsSub (pyLower col) kw)

/-- Embedding of `detect_traffic_volume_columns` (src lines 31-33): keep
every column header whose lowercasing contains a volume keyword. -/
def detect_traffic_volume_columns (cols : List String) : List String :=
  cols.filter isVolumeName

/-- Embedding of `detect_datetime_column` (src lines 36-41): return the
first column header whose lowercasing contains a datetime keyword. -/
def detect_datetime_column (cols : List String) : Option String :=
  cols.find? isDatetimeName

/-- `detect_datetime_column` with the reduced keyword list
`["timestamp", "date"]`, used to state the C10 refinement equivalence. -/
def detect_datetime_column_reduced (cols : List String) : Option String :=
  cols.find? (fun col =>
    (["timestamp", "date"] : List String).any
      (fun kw => strContainsSub (pyLower col) kw))

/-- A timestamp value (the embedding of a parsed `datetime`): calendar and
clock components. -/
structure DT where
  year : Nat
  month : Nat
  day : Nat
  hour : Nat
  minute : Nat
  second : Nat
deriving DecidableEq, Repr

/-- Chronological comparison of timestamps (the embedding of comparison of
parsed datetimes): lexicographic on the components. -/
def dtLe (a b : DT) : Bool :=
  if a.year ≠ b.year then decide (a.year < b.year)
  else if a.month ≠ b.month then decide (a.month < b.month)
  else if a.day ≠ b.day then decide (a.day < b.day)
  else if a.hour ≠ b.hour then decide (a.hour < b.hour)
  else if a.minute ≠ b.minute then decide (a.minute < b.minute)
  else decide (a.second ≤ b.second)

/-- A cell value in a processed table: a raw string, a parsed timestamp, a
coerced number, or a missing marker (pandas `NaN`/`NaT`). -/
inductive Value where
  | str : String → Value
  | ts : DT → Value
  | num : Rat → Value
  | na : Value
deriving DecidableEq, Repr

/-- `true` exactly on timestamp cells; `rows.all` over this at the datetime
index embeds `pd.api.types.is_datetime64_any_dtype` on the coerced column
(per-value coercion yields a uniformly timestamp-typed column, vacuously so
when no row survives). -/
def Value.isTs : Value → Bool
  | .ts _ => true
  | _ => false

/-- A raw parsed CSV: ordered headers and rows of untyped string cells. -/
structure RawTable where
  headers : List String
  rows : List (List String)
deriving DecidableEq, Repr

/-- A table after preprocessing: same shape, cells may be typed. -/
structure NormTable where
  headers : List String
  rows : List (List Value)
deriving DecidableEq, Repr

/-- The failure modes of `preprocess_data` (src lines 44-64): the file is
unreadable as tabular data (line 49), no header matches a datetime keyword
(line 63), or the coerced column is not uniformly datetime-typed
(line 58). -/
inductive PreprocError where
  | parseError
  | noDatetimeColumn
  | conversionFailed
deriving DecidableEq, Repr

/-- Per-row embedding of `pd.to_datetime(data[col], errors="coerce")`
followed by `dropna(subset=[col])` (src lines 55-56): parse the cell at the
datetime column index `i`; on failure the row is dropped (`none`), on
success that cell becomes the parsed timestamp and every other cell is kept
as its string. -/
def coerceRow (parseTs : String → Option DT) (i : Nat) (row : List String) :
    Option (List Value) :=
  match parseTs (row.getD i "") with
  | none => none
  | some d =>
    some (row.mapIdx (fun j s => if j = i then Value.ts d else Value.str s))

/-- The successful-row transform of `coerceRow`, used to state that kept
rows are changed only at the datetime column. -/
def convRow (parseTs : String → Option DT) (i : Nat) (r : List String) :
    List Value :=
  r.mapIdx (fun j s =>
    if j = i then
      match parseTs (r.getD i "") with
      | some d => Value.ts d
      | none => Value.na
    else Value.str s)

/-- `data.rename(columns={datetime_col: "datetime"})` (src line 60) applied
to the lowercased headers. -/
def renameHeaders (lowered : List String) (dcol : String) : List String :=
  lowered.map (fun h => if h = dcol then "datetime" else h)

instance : DecidableEq PreprocError := fun a b => by
  cases a <;> cases b <;> first
    | exact isTrue rfl
    | exact isFalse (fun h => PreprocError.noConfusion h)

instance {ε α : Type} [DecidableEq ε] [DecidableEq α] :
    DecidableEq (Except ε α) := fun a b => by
  cases a <;> cases b
  case error.error e f =>
    exact if h : e = f then isTrue (by rw [h])
      else isFalse (fun hc => h (by injection hc))
  case ok.ok x y =>
    exact if h : x = y then isTrue (by rw [h])
      else isFalse (fun hc => h (by injection hc))
  all_goals exact isFalse (fun h => Except.noConfusion h)

/-- The branch of `preprocess_data` after datetime-column detection
(src lines 54-64): fail if no column was detected (lines 62-64); otherwise
coerce the column and drop unparseable rows (lines 55-56), fail if the
coerced column is not uniformly datetime-typed (lines 57-59), and rename
the detected column to `"datetime"` (line 60). -/
def preprocess_detected (parseTs : String → Option DT) (raw : RawTable) :
    Option String → Except PreprocError NormTable
  | none => .error .noDatetimeColumn
  | some dcol =>
    if (raw.rows.filterMap
          (coerceRow parseTs (List.indexOf dcol (List.map pyLower raw.headers)))).all
        (fun r =>
          (r.getD (List.indexOf dcol (List.map pyLower raw.headers)) Value.na).isTs) then
      .ok ⟨renameHeaders (List.map pyLower raw.headers) dcol,
        raw.rows.filterMap
          (coerceRow parseTs (List.indexOf dcol (List.map pyLower raw.headers)))⟩
    else .error .conversionFailed

/-- Embedding of `preprocess_data` (src lines 44-64). The CSV reading step
(`pd.read_csv`, line 47) is abstracted as an `Option RawTable` input
(`none` = unreadable); pandas datetime parsing is the abstract per-cell
parser `parseTs`. Lowercases all headers (line 52), detects the datetime
column (line 53) and hands off to `preprocess_detected`. -/
def preprocess_data (parseTs : String → Option DT) :
    Option RawTable → Except PreprocError NormTable
  | none => .error .parseError
  | some raw =>
    preprocess_detected parseTs raw
      (detect_datetime_column (List.map pyLower raw.headers))

/-- The decimal digit character for `n < 10`. -/
def digitChar (n : Nat) : Char :=
  Char.ofNat (48 + n)

/-- Two-digit zero padding: the embedding of the Python format spec `02d`
for `n ≤ 99` (every hour and minute formatted in the source is below
60). -/
def pad2 (n : Nat) : String :=
  ⟨[digitChar (n / 10), digitChar (n % 10)]⟩

/-- Embedding of `generate_time_options` (src lines 68-69): the strings
`"HH:MM:00"` for every hour `0..23` and every minute in `0, 5, ..., 55`. -/
def generate_time_options : List String :=
  (List.range 24).flatMap (fun hour =>
    (List.range' 0 12 5).map (fun minute =>
      pad2 hour ++ ":" ++ pad2 minute ++ ":00"))

/-- Gregorian leap-year rule. -/
def isLeapYear (y : Nat) : Bool :=
  (y % 4 == 0 && y % 100 != 0) || (y % 400 == 0)

/-- Length of a month in the proleptic Gregorian calendar. -/
def daysInMonth (y m : Nat) : Nat :=
  if m = 2 then (if isLeapYear y then 29 else 28)
  else if m = 4 ∨ m = 6 ∨ m = 9 ∨ m = 11 then 30
  else 31

/-- The failure mode of window construction: `datetime.strptime` raises
`ValueError` (caught at src line 203) on an impossible calendar date. -/
inductive WindowError where
  | invalidDate
deriving DecidableEq, Repr

/-- Embedding of the window-endpoint construction
`datetime.strptime(f"{year}-{month:02d}-{day:02d} {time}", "%Y-%m-%d %H:%M:%S")`
(src lines 197-198): Python's `datetime` accepts exactly the component
tuples that form a real proleptic-Gregorian date (year 1..9999) and a valid
time of day, and returns exactly those components — it never clamps. -/
def buildWindow (y m d hh mi ss : Nat) : Except WindowError DT :=
  if 1 ≤ y ∧ y ≤ 9999 ∧ 1 ≤ m ∧ m ≤ 12 ∧ 1 ≤ d ∧ d ≤ daysInMonth y m
      ∧ hh ≤ 23 ∧ mi ≤ 59 ∧ ss ≤ 59 then
    .ok ⟨y, m, d, hh, mi, ss⟩
  else .error .invalidDate

/-- The row test of the time filter (src lines 200-201):
`(row.datetime >= start) & (row.datetime <= end)` at the `"datetime"`
column index `i`. -/
def rowInWindow (i : Nat) (s e : DT) (r : List Value) : Bool :=
  match r.getD i Value.na with
  | .ts d => dtLe s d && dtLe d e
  | _ => false

/-- Embedding of the time-window filter (src lines 199-202):
`processed_data[(processed_data["datetime"] >= start_datetime) &
(processed_data["datetime"] <= end_datetime)]`. -/
def filterByWindow (t : NormTable) (s e : DT) : NormTable :=
  ⟨t.headers, t.rows.filter (rowInWindow (List.indexOf "datetime" t.headers) s e)⟩

/-- The year of a row's datetime cell (`.dt.year`, src line 179); in a
normalized table the cell is always a timestamp. -/
def rowYear (i : Nat) (r : List Value) : Nat :=
  match r.getD i Value.na with
  | .ts d => d.year
  | _ => 0

/-- First-occurrence deduplication with an accumulator of seen values. -/
def uniqueFirstAux (seen : List Nat) : List Nat → List Nat
  | [] => []
  | a :: as =>
    if a ∈ seen then uniqueFirstAux seen as
    else a :: uniqueFirstAux (a :: seen) as

/-- Embedding of pandas `Series.unique`: distinct values in
first-occurrence order. -/
def uniqueFirst (l : List Nat) : List Nat :=
  uniqueFirstAux [] l

/-- Embedding of the year domain offered to the caller (src line 179):
`sorted(processed_data["datetime"].dt.year.unique())`. -/
def yearsOffered (t : NormTable) : List Nat :=
  List.insertionSort (· ≤ ·)
    (uniqueFirst (t.rows.map (rowYear (List.indexOf "datetime" t.headers))))

/-- Embedding of `list(range(1, 13))` (src line 180). -/
def monthsOffered : List Nat := List.range' 1 12

/-- Embedding of `list(range(1, 32))` (src line 181). -/
def daysOffered : List Nat := List.range' 1 31

/-- An uploaded file: its declared byte size, and its content abstracted as
an `Option RawTable` (`none` = unreadable as tabular data). -/
structure UploadedFile where
  size : Nat
  content : Option RawTable

/-- Outcome of the upload gate of the dashboard. -/
inductive PipelineResult where
  | noFile
  | oversizeRejected
  | preprocessFailed : PreprocError → PipelineResult
  | emptyData
  | proceeded : NormTable → PipelineResult
deriving Repr

/-- Embedding of the upload gate of `historical_data` (src lines 163-172):
no upload does nothing; an upload with declared size above
`300 * 1024 * 1024` bytes is rejected with an error message before any
parsing (lines 166-168); otherwise the file is preprocessed, a failed or
empty result stops the dashboard (line 172), and a nonempty preprocessed
table proceeds to filtering. -/
def historical_data (parseTs : String → Option DT) :
    Option UploadedFile → PipelineResult
  | none => .noFile
  | some f =>
    if f.size > 300 * 1024 * 1024 then .oversizeRejected
    else
      match preprocess_data parseTs f.content with
      | .error e => .preprocessFailed e
      | .ok t => if t.rows.isEmpty then .emptyData else .proceeded t

/-- Outcome of the geo-sanitization step: geo columns absent (src line 157),
no row survives coercion and the range check (src line 86), or the
surviving rows are plotted (src lines 89-155). -/
inductive GeoResult where
  | missingColumns
  | noValidPoints
  | plotted : List (List Value) → GeoResult
deriving DecidableEq, Repr

/-- Per-cell embedding of `pd.to_numeric(..., errors="coerce")`
(src lines 77-78): an unparseable cell becomes missing. -/
def coerceNumCell (parseNum : String → Option Rat) : Value → Value
  | .str s =>
    match parseNum s with
    | some q => .num q
    | none => .na
  | .num q => .num q
  | .ts _ => .na
  | .na => .na

/-- The row test of src lines 79-83: both coordinates survived numeric
coercion (`dropna`) and lie in range (`between` is inclusive on both
ends). -/
def geoRowOk (li gi : Nat) (r : List Value) : Bool :=
  match r.getD li Value.na, r.getD gi Value.na with
  | .num la, .num lo => decide (-90 ≤ la ∧ la ≤ 90 ∧ -180 ≤ lo ∧ lo ≤ 180)
  | _, _ => false

/-- The rows of the caller's table after the in-place coercion of the
latitude and longitude columns (src lines 77-78). -/
def geoCoerceRows (parseNum : String → Option Rat) (t : NormTable) :
    List (List Value) :=
  t.rows.map (fun r =>
    r.mapIdx (fun j v =>
      if j = List.indexOf "latitude" t.headers
          ∨ j = List.indexOf "longitude" t.headers then
        coerceNumCell parseNum v
      else v))

/-- The geo-plottable rows (src lines 79-83): coerced rows that survive
`dropna` and the range check. -/
def geoSurvivors (parseNum : String → Option Rat) (t : NormTable) :
    List (List Value) :=
  (geoCoerceRows parseNum t).filter
    (geoRowOk (List.indexOf "latitude" t.headers)
      (List.indexOf "longitude" t.headers))

/-- Embedding of `plot_folium_map_with_geojson` (src lines 72-157).
Returns the geo outcome together with the caller-visible table after the
call: the column assignments of lines 77-78 coerce the latitude/longitude
cells in place in the caller's table, while lines 79-83 rebind a local name
to new frames and so never reach the caller. When a geo column is absent
the table is untouched and the outcome is the missing-columns message of
line 157. -/
def plot_folium_map_with_geojson (parseNum : String → Option Rat)
    (t : NormTable) : GeoResult × NormTable :=
  if ("longitude" ∈ t.headers ∧ "latitude" ∈ t.headers : Prop) then
    if (geoSurvivors parseNum t).isEmpty then
      (.noValidPoints, ⟨t.headers, geoCoerceRows parseNum t⟩)
    else (.plotted (geoSurvivors parseNum t), ⟨t.headers, geoCoerceRows parseNum t⟩)
  else (.missingColumns, t)

/-- A concrete numeric parser for geo witnesses: recognises four decimal
strings; `"N/A"` (or anything else) fails. -/
def pnEx : String → Option Rat := fun s =>
  if s = "91" then some 91
  else if s = "0" then some 0
  else if s = "10" then some 10
  else if s = "20" then some 20
  else none

/-- One-row table whose latitude `91` is out of range. -/
def tLat91 : NormTable :=
  ⟨["datetime", "latitude", "longitude"],
    [[.ts ⟨2020, 1, 1, 0, 0, 0⟩, .str "91", .str "0"]]⟩

/-- One-row table with no longitude column. -/
def tNoLong : NormTable :=
  ⟨["datetime", "latitude"], [[.ts ⟨2020, 1, 1, 0, 0, 0⟩, .str "10"]]⟩

/-- One-row table whose coordinates are both the unparseable `"N/A"`. -/
def tNA : NormTable :=
  ⟨["datetime", "latitude", "longitude"],
    [[.ts ⟨2020, 1, 1, 0, 0, 0⟩, .str "N/A", .str "N/A"]]⟩

/-- One-row table with valid coordinates. -/
def tGood : NormTable :=
  ⟨["datetime", "latitude", "longitude"],
    [[.ts ⟨2020, 1, 1, 0, 0, 0⟩, .str "10", .str "20"]]⟩

/-- A concrete datetime parser for witnesses: recognises two ISO dates. -/
def tsEx : String → Option DT := fun s =>
  if s = "2020-01-01" then some ⟨2020, 1, 1, 0, 0, 0⟩
  else if s = "2020-01-02" then some ⟨2020, 1, 2, 0, 0, 0⟩
  else none

/-- A concrete datetime parser for counterexamples: rejects everything. -/
def noneTs : String → Option DT := fun _ => none

/-- A concrete raw table for witnesses: three rows, the middle one with an
unparseable datetime cell. -/
def rawEx3 : RawTable :=
  ⟨["Date", "Volume"], [["2020-01-01", "5"], ["bad", "6"], ["2020-01-02", "7"]]⟩

/-- The preprocessing result of `rawEx3` under `tsEx`. -/
def normEx3 : NormTable :=
  ⟨["datetime", "volume"],
    [[.ts ⟨2020, 1, 1, 0, 0, 0⟩, .str "5"], [.ts ⟨2020, 1, 2, 0, 0, 0⟩, .str "7"]]⟩

section SubstringLemmas

theorem leadsWith_append (n m hay : List Char)
    (h : leadsWith (n ++ m) hay = true) : leadsWith n hay = true := by
  induction n generalizing hay with
  | nil => rfl
  | cons a as ih =>
    cases hay with
    | nil => simp [leadsWith] at h
    | cons b bs =>
      simp only [List.cons_append, leadsWith, Bool.and_eq_true] at h ⊢
      exact ⟨h.1, ih bs h.2⟩

theorem hasSub_append (n m hay : List Char)
    (h : hasSub (n ++ m) hay = true) : hasSub n hay = true := by
  induction hay with
  | nil =>
    simp only [hasSub] at h ⊢
    exact leadsWith_append n m [] h
  | cons c rest ih =>
    simp only [hasSub, Bool.or_eq_true] at h ⊢
    cases h with
    | inl h => exact Or.inl (leadsWith_append n m _ h)
    | inr h => exact Or.inr (ih h)

/-- Any header matching the full datetime keyword list also matches the
reduced list `["timestamp", "date"]`, and conversely: `"date"` is a prefix
of both `"datetime"` and `"date_time"`. -/
theorem isDatetimeName_iff_reduced (col : String) :
    isDatetimeName col =
      (["timestamp", "date"] : List String).any
        (fun kw => strContainsSub (pyLower col) kw) := by
  simp only [isDatetimeName, datetimeKeywords, List.any_cons, List.any_nil,
    Bool.or_false]
  cases hd : strContainsSub (pyLower col) "date" with
  | true => simp [hd]
  | false =>
    have hdt : strContainsSub (pyLower col) "datetime" = false := by
      cases h : strContainsSub (pyLower col) "datetime" with
      | false => rfl
      | true =>
        exact absurd (hasSub_append "date".data "time".data _ h) (by
          simpa [strContainsSub] using hd)
    have hdu : strContainsSub (pyLower col) "date_time" = false := by
      cases h : strContainsSub (pyLower col) "date_time" with
      | false => rfl
      | true =>
        exact absurd (hasSub_append "date".data "_time".data _ h) (by
          simpa [strContainsSub] using hd)
    simp [hd, hdt, hdu]

end SubstringLemmas

section FindLemmas

/-- `List.find?` returns `some a` exactly when `a` is the first element
satisfying the test: everything before it fails the test. -/
theorem find?_eq_some_first {α : Type} (p : α → Bool) (l : List α) (a : α) :
    l.find? p = some a ↔
      ∃ l1 l2, l = l1 ++ a :: l2 ∧ p a = true ∧ ∀ b ∈ l1, p b = false := by
  induction l with
  | nil =>
    constructor
    · intro h; exact absurd h (by simp)
    · rintro ⟨l1, l2, heq, -, -⟩
      exact absurd heq.symm (by simp)
  | cons x xs ih =>
    cases hx : p x with
    | true =>
      rw [List.find?_cons_of_pos _ hx]
      constructor
      · intro h
        obtain rfl : x = a := by injection h
        exact ⟨[], xs, rfl, hx, by simp⟩
      · rintro ⟨l1, l2, heq, hpa, hall⟩
        cases l1 with
        | nil =>
          obtain ⟨rfl, -⟩ : x = a ∧ xs = l2 := by
            constructor <;> injection heq
          rfl
        | cons b bs =>
          obtain ⟨rfl, -⟩ : x = b ∧ xs = bs ++ a :: l2 := by
            constructor <;> injection heq
          exact absurd hx (by simp [hall x (by simp)])
    | false =>
      rw [List.find?_cons_of_neg _ (by simp [hx]), ih]
      constructor
      · rintro ⟨l1, l2, rfl, hpa, hall⟩
        refine ⟨x :: l1, l2, rfl, hpa, ?_⟩
        intro b hb
        rcases List.mem_cons.mp hb with rfl | hb
        · exact hx
        · exact hall b hb
      · rintro ⟨l1, l2, heq, hpa, hall⟩
        cases l1 with
        | nil =>
          obtain ⟨rfl, -⟩ : x = a ∧ xs = l2 := by
            constructor <;> injection heq
          exact absurd hpa (by simp [hx])
        | cons b bs =>
          obtain ⟨rfl, htl⟩ : x = b ∧ xs = bs ++ a :: l2 := by
            constructor <;> injection heq
          exact ⟨bs, l2, htl, hpa, fun c hc => hall c (by simp [hc])⟩

end FindLemmas

/-- C1: `classify` returns as the datetime column the first header (in
original order) that case-insensitively contains a datetime keyword (none
when no header matches), and returns as volume columns exactly the headers
that case-insensitively contain a volume keyword, in original order and
without duplicates. -/
theorem classify_spec (cols : List String) (h : cols.Nodup) :
    (∀ c, detect_datetime_column cols = some c ↔
        ∃ l1 l2, cols = l1 ++ c :: l2 ∧ isDatetimeName c = true ∧
          ∀ b ∈ l1, isDatetimeName b = false)
    ∧ (detect_datetime_column cols = none ↔
        ∀ c ∈ cols, isDatetimeName c = false)
    ∧ (∀ c, c ∈ detect_traffic_volume_columns cols ↔
        c ∈ cols ∧ isVolumeName c = true)
    ∧ (detect_traffic_volume_columns cols).Sublist cols
    ∧ (detect_traffic_volume_columns cols).Nodup := by
  refine ⟨fun c => find?_eq_some_first isDatetimeName cols c, ?_, ?_, ?_, ?_⟩
  · simp [detect_datetime_column, List.find?_eq_none]
  · intro c
    exact List.mem_filter
  · exact List.filter_sublist cols
  · exact h.filter isVolumeName

/-- Witness for C1 at the concrete header list
`["ID", "Date_Time", "Traffic_Volume", "speed"]`. -/
theorem classify_spec_witness :
    detect_datetime_column ["ID", "Date_Time", "Traffic_Volume", "speed"] =
        some "Date_Time"
      ∧ "Traffic_Volume" ∈
        detect_traffic_volume_columns ["ID", "Date_Time", "Traffic_Volume", "speed"] := by
  have h := classify_spec ["ID", "Date_Time", "Traffic_Volume", "speed"]
    (by decide)
  exact ⟨(h.1 "Date_Time").mpr
      ⟨["ID"], ["Traffic_Volume", "speed"], rfl, by decide, by decide⟩,
    (h.2.2.1 "Traffic_Volume").mpr ⟨by decide, by decide⟩⟩

/-- C10: datetime detection over the full keyword list equals detection
over the reduced list `["timestamp", "date"]`, since `"date"` is a prefix
of both `"datetime"` and `"date_time"`; in particular a header containing
`"date"` (such as `"validated"` or `"update_count"`) counts as a datetime
match and, when first, is selected as the datetime column. -/
theorem detect_datetime_reduced_equiv :
    (∀ cols, detect_datetime_column cols = detect_datetime_column_reduced cols)
    ∧ (∀ col, strContainsSub (pyLower col) "date" = true →
        isDatetimeName col = true)
    ∧ detect_datetime_column ["validated"] = some "validated"
    ∧ detect_datetime_column ["update_count", "ts"] = some "update_count" := by
  refine ⟨?_, ?_, by decide, by decide⟩
  · intro cols
    unfold detect_datetime_column detect_datetime_column_reduced
    have hp : isDatetimeName =
        (fun col => (["timestamp", "date"] : List String).any
          (fun kw => strContainsSub (pyLower col) kw)) :=
      funext fun col => isDatetimeName_iff_reduced col
    rw [hp]
  · intro col hd
    rw [isDatetimeName_iff_reduced col]
    simp [hd]

/-- Witness for C10: the hypothesis of its second conjunct is satisfiable
at the header `"validated"`. -/
theorem detect_datetime_reduced_equiv_witness :
    isDatetimeName "validated" = true :=
  detect_datetime_reduced_equiv.2.1 "validated" (by decide)

section PreprocessLemmas

theorem coerceRow_eq (parseTs : String → Option DT) (i : Nat) (r : List String) :
    coerceRow parseTs i r =
      if (parseTs (r.getD i "")).isSome then some (convRow parseTs i r)
      else none := by
  unfold coerceRow convRow
  cases hpt : parseTs (r.getD i "") with
  | none => simp [hpt]
  | some d => simp [hpt]

theorem filterMap_eq_filter_map {α β : Type} (f : α → Option β) (p : α → Bool)
    (g : α → β) (h : ∀ a, f a = if p a then some (g a) else none) :
    ∀ l : List α, l.filterMap f = (l.filter p).map g
  | [] => rfl
  | a :: l => by
    rw [List.filterMap_cons, List.filter_cons, h a]
    cases hpa : p a with
    | true => simp [filterMap_eq_filter_map f p g h l]
    | false => simp [filterMap_eq_filter_map f p g h l]

/-- On a rectangular raw table, every row kept by the coercion step has a
timestamp at the datetime index, so the dtype check of src line 57 passes
(vacuously when no row survives). -/
theorem preprocess_all_ts (parseTs : String → Option DT) (raw : RawTable)
    (dcol : String)
    (hdet : detect_datetime_column (List.map pyLower raw.headers) = some dcol)
    (hwf : ∀ r ∈ raw.rows, r.length = raw.headers.length) :
    (raw.rows.filterMap
        (coerceRow parseTs (List.indexOf dcol (List.map pyLower raw.headers)))).all
      (fun r =>
        (r.getD (List.indexOf dcol (List.map pyLower raw.headers)) Value.na).isTs)
      = true := by
  have hmem : dcol ∈ List.map pyLower raw.headers :=
    List.mem_of_find?_eq_some hdet
  have hi : List.indexOf dcol (List.map pyLower raw.headers) <
      (List.map pyLower raw.headers).length :=
    List.indexOf_lt_length.mpr hmem
  rw [List.length_map] at hi
  rw [List.all_eq_true]
  intro v hv
  obtain ⟨r0, hr0, hcr⟩ := List.mem_filterMap.mp hv
  unfold coerceRow at hcr
  cases hpt : parseTs
      (r0.getD (List.indexOf dcol (List.map pyLower raw.headers)) "") with
  | none => rw [hpt] at hcr; exact absurd hcr (by simp)
  | some d =>
    rw [hpt] at hcr
    obtain rfl : _ = v := by injection hcr
    have hlen : List.indexOf dcol (List.map pyLower raw.headers) < r0.length := by
      rw [hwf r0 hr0]; exact hi
    rw [List.getD_eq_getElem _ _ (by rw [List.length_mapIdx]; exact hlen),
      List.getElem_mapIdx]
    simp [Value.isTs]

end PreprocessLemmas

/-- C3 (amended: other columns keep their values, but their headers are
lowercased): when preprocessing succeeds, the output headers are the
lowercased input headers with the detected column renamed `"datetime"`;
the output rows are exactly the input rows whose cell in the detected
column parses as a timestamp, in order, each changed only at that cell;
and the output row count is at most the input row count. -/
theorem preprocess_data_spec (parseTs : String → Option DT) (raw : RawTable)
    (t : NormTable) (dcol : String)
    (hwf : ∀ r ∈ raw.rows, r.length = raw.headers.length)
    (hdet : detect_datetime_column (List.map pyLower raw.headers) = some dcol)
    (hok : preprocess_data parseTs (some raw) = .ok t) :
    t.headers =
      (List.map pyLower raw.headers).map
        (fun h => if h = dcol then "datetime" else h)
    ∧ t.rows =
      (raw.rows.filter (fun r =>
          (parseTs
            (r.getD (List.indexOf dcol (List.map pyLower raw.headers)) "")).isSome)).map
        (convRow parseTs (List.indexOf dcol (List.map pyLower raw.headers)))
    ∧ t.rows.length ≤ raw.rows.length := by
  have hall := preprocess_all_ts parseTs raw dcol hdet hwf
  simp only [preprocess_data, hdet, preprocess_detected] at hok
  rw [if_pos hall] at hok
  obtain rfl : _ = t := by injection hok
  refine ⟨rfl, ?_, ?_⟩
  · exact filterMap_eq_filter_map _ _ _
      (coerceRow_eq parseTs (List.indexOf dcol (List.map pyLower raw.headers)))
      raw.rows
  · calc (raw.rows.filterMap
          (coerceRow parseTs (List.indexOf dcol (List.map pyLower raw.headers)))).length
        = ((raw.rows.filter (fun r =>
              (parseTs (r.getD (List.indexOf dcol (List.map pyLower raw.headers))
                "")).isSome)).map
            (convRow parseTs (List.indexOf dcol (List.map pyLower raw.headers)))).length := by
          rw [filterMap_eq_filter_map _ _ _
            (coerceRow_eq parseTs (List.indexOf dcol (List.map pyLower raw.headers)))
            raw.rows]
    _ ≤ raw.rows.length := by
          rw [List.length_map]; exact List.length_filter_le _ _

/-- Witness for C3 at the concrete table `rawEx3` (three rows, one with an
unparseable datetime cell) under the parser `tsEx`. -/
theorem preprocess_data_spec_witness :
    normEx3.rows.length ≤ rawEx3.rows.length :=
  (preprocess_data_spec tsEx rawEx3 normEx3 "date" (by decide) (by decide)
    (by decide)).2.2

/-- C3 counterexample: the claim says all non-detected columns pass through
unchanged, but preprocessing lowercases every header: column `"Volume"`
comes out named `"volume"`. -/
theorem preprocess_headers_changed :
    (preprocess_data tsEx
        (some ⟨["Date", "Volume"], [["2020-01-01", "5"]]⟩)).map NormTable.headers
      = .ok ["datetime", "volume"]
    ∧ (["datetime", "volume"] : List String) ≠ ["datetime", "Volume"] := by
  exact ⟨by decide, by decide⟩

/-- C4 (amended: an all-rows-dropped table is a success, not a failure):
preprocessing fails with `parseError` exactly when the input is unreadable,
fails with `noDatetimeColumn` exactly when no lowercased header contains a
datetime keyword, and on rectangular input never fails with
`conversionFailed` — whenever a datetime column is detected it succeeds,
even when every row is dropped. -/
theorem preprocess_failure_spec (parseTs : String → Option DT) :
    (∀ input, preprocess_data parseTs input = .error .parseError ↔ input = none)
    ∧ (∀ raw, preprocess_data parseTs (some raw) = .error .noDatetimeColumn ↔
        detect_datetime_column (List.map pyLower raw.headers) = none)
    ∧ (∀ raw, (∀ r ∈ raw.rows, r.length = raw.headers.length) →
        preprocess_data parseTs (some raw) ≠ .error .conversionFailed)
    ∧ (∀ raw, (∀ r ∈ raw.rows, r.length = raw.headers.length) →
        detect_datetime_column (List.map pyLower raw.headers) ≠ none →
        ∃ t, preprocess_data parseTs (some raw) = .ok t) := by
  refine ⟨?_, ?_, ?_, ?_⟩
  · intro input
    cases input with
    | none => simp [preprocess_data]
    | some raw =>
      simp only [preprocess_data]
      cases hd : detect_datetime_column (List.map pyLower raw.headers) with
      | none => simp [preprocess_detected]
      | some dcol =>
        simp only [preprocess_detected]
        constructor
        · intro h
          split at h <;> simp at h
        · intro h
          simp at h
  · intro raw
    simp only [preprocess_data]
    cases hd : detect_datetime_column (List.map pyLower raw.headers) with
    | none => simp [preprocess_detected]
    | some dcol =>
      simp only [preprocess_detected]
      constructor
      · intro h
        split at h <;> simp at h
      · intro h
        simp at h
  · intro raw hwf
    simp only [preprocess_data]
    cases hd : detect_datetime_column (List.map pyLower raw.headers) with
    | none => simp [preprocess_detected]
    | some dcol =>
      simp only [preprocess_detected]
      rw [if_pos (preprocess_all_ts parseTs raw dcol hd hwf)]
      simp
  · intro raw hwf hne
    cases hd : detect_datetime_column (List.map pyLower raw.headers) with
    | none => exact absurd hd hne
    | some dcol =>
      refine ⟨⟨renameHeaders (List.map pyLower raw.headers) dcol,
        raw.rows.filterMap
          (coerceRow parseTs (List.indexOf dcol (List.map pyLower raw.headers)))⟩, ?_⟩
      simp only [preprocess_data, hd, preprocess_detected]
      rw [if_pos (preprocess_all_ts parseTs raw dcol hd hwf)]

/-- Witness for C4: under `tsEx`, preprocessing `rawEx3` (which has a
datetime column and rectangular rows) succeeds. -/
theorem preprocess_failure_spec_witness :
    ∃ t, preprocess_data tsEx (some rawEx3) = .ok t :=
  (preprocess_failure_spec tsEx).2.2.2 rawEx3 (by decide) (by decide)

/-- C4 counterexample: a table whose only row has an unparseable datetime
value preprocesses to a success with an empty table — the claim says this
case fails with the conversion error. -/
theorem preprocess_empty_success :
    preprocess_data noneTs (some ⟨["date"], [["x"]]⟩) = .ok ⟨["datetime"], []⟩
    ∧ preprocess_data noneTs (some ⟨["date"], [["x"]]⟩)
        ≠ .error .conversionFailed := by
  exact ⟨by decide, by decide⟩

/-- The row test of the time filter holds exactly on rows whose datetime
cell is a timestamp lying in the inclusive window. -/
theorem rowInWindow_iff (i : Nat) (s e : DT) (r : List Value) :
    rowInWindow i s e r = true ↔
      ∃ d, r.getD i Value.na = Value.ts d ∧ dtLe s d = true ∧ dtLe d e = true := by
  unfold rowInWindow
  cases hc : r.getD i Value.na with
  | str v => simp [hc]
  | num q => simp [hc]
  | na => simp [hc]
  | ts d =>
    simp only [hc, Bool.and_eq_true, Value.ts.injEq]
    constructor
    · rintro ⟨h1, h2⟩
      exact ⟨d, rfl, h1, h2⟩
    · rintro ⟨d2, rfl, h1, h2⟩
      exact ⟨h1, h2⟩

/-- C2: for every normalized table and every window with `start ≤ end`, the
time filter keeps the headers, returns a subsequence of the rows (original
relative order preserved) containing exactly the rows whose datetime value
`d` satisfies `start ≤ d ≤ end` (both bounds inclusive), and when no row
qualifies it returns the empty table — a success, not an error. -/
theorem filterByWindow_spec (t : NormTable) (s e : DT)
    (_hse : dtLe s e = true)
    (_hnorm : ∀ r ∈ t.rows,
      (r.getD (List.indexOf "datetime" t.headers) Value.na).isTs = true) :
    (filterByWindow t s e).headers = t.headers
    ∧ ((filterByWindow t s e).rows).Sublist t.rows
    ∧ (∀ r, r ∈ (filterByWindow t s e).rows ↔
        r ∈ t.rows ∧ ∃ d,
          r.getD (List.indexOf "datetime" t.headers) Value.na = Value.ts d
          ∧ dtLe s d = true ∧ dtLe d e = true)
    ∧ ((∀ r ∈ t.rows, ∀ d,
          r.getD (List.indexOf "datetime" t.headers) Value.na = Value.ts d →
          ¬(dtLe s d = true ∧ dtLe d e = true)) →
        (filterByWindow t s e).rows = []) := by
  refine ⟨rfl, List.filter_sublist _, ?_, ?_⟩
  · intro r
    show r ∈ t.rows.filter (rowInWindow (List.indexOf "datetime" t.headers) s e)
      ↔ _
    rw [List.mem_filter, rowInWindow_iff]
  · intro hnone
    show t.rows.filter (rowInWindow (List.indexOf "datetime" t.headers) s e) = []
    rw [List.filter_eq_nil_iff]
    intro r hr hw
    obtain ⟨d, hd, h1, h2⟩ := (rowInWindow_iff _ s e r).mp hw
    exact hnone r hr d hd ⟨h1, h2⟩

/-- Witness for C2 at `normEx3` with the window covering 2020-01-01. -/
theorem filterByWindow_spec_witness :
    (filterByWindow normEx3 ⟨2020, 1, 1, 0, 0, 0⟩ ⟨2020, 1, 1, 23, 55, 0⟩).headers
      = normEx3.headers :=
  (filterByWindow_spec normEx3 ⟨2020, 1, 1, 0, 0, 0⟩ ⟨2020, 1, 1, 23, 55, 0⟩
    (by decide) (by decide)).1

/-- C5: window construction fails with the invalid-date error exactly when
the (year, month, day) combination does not exist on the calendar, and a
successful construction returns exactly the requested components (no
clamping); concretely, April 31 fails, 2024-02-29 (leap year) succeeds, and
2023-02-29 fails. -/
theorem buildWindow_spec (y m d hh mi ss : Nat)
    (hy : 1 ≤ y ∧ y ≤ 9999) (ht : hh ≤ 23 ∧ mi ≤ 59 ∧ ss ≤ 59) :
    (buildWindow y m d hh mi ss = .error .invalidDate ↔
      ¬(1 ≤ m ∧ m ≤ 12 ∧ 1 ≤ d ∧ d ≤ daysInMonth y m))
    ∧ (∀ w, buildWindow y m d hh mi ss = .ok w → w = ⟨y, m, d, hh, mi, ss⟩)
    ∧ buildWindow 2024 4 31 0 0 0 = .error .invalidDate
    ∧ buildWindow 2024 2 29 0 0 0 = .ok ⟨2024, 2, 29, 0, 0, 0⟩
    ∧ buildWindow 2023 2 29 0 0 0 = .error .invalidDate := by
  unfold buildWindow
  by_cases hc : 1 ≤ m ∧ m ≤ 12 ∧ 1 ≤ d ∧ d ≤ daysInMonth y m
  · rw [if_pos ⟨hy.1, hy.2, hc.1, hc.2.1, hc.2.2.1, hc.2.2.2, ht.1, ht.2.1,
      ht.2.2⟩]
    refine ⟨?_, ?_, by decide, by decide, by decide⟩
    · constructor
      · intro h
        exact absurd h (by simp)
      · intro h
        exact absurd hc h
    · intro w hw
      injection hw with hw
      exact hw.symm
  · rw [if_neg (fun hfull =>
      hc ⟨hfull.2.2.1, hfull.2.2.2.1, hfull.2.2.2.2.1, hfull.2.2.2.2.2.1⟩)]
    refine ⟨?_, ?_, by decide, by decide, by decide⟩
    · exact ⟨fun _ => hc, fun _ => rfl⟩
    · intro w hw
      exact absurd hw (by simp)

/-- Witness for C5: the non-leap-year date 2023-02-29 is rejected. -/
theorem buildWindow_spec_witness :
    buildWindow 2023 2 29 0 0 0 = .error .invalidDate :=
  ((buildWindow_spec 2023 2 29 0 0 0 (by decide) (by decide)).1).mpr (by decide)

section UniqueFirstLemmas

theorem uniqueFirstAux_mem (seen l : List Nat) (a : Nat) :
    a ∈ uniqueFirstAux seen l ↔ a ∈ l ∧ a ∉ seen := by
  induction l generalizing seen with
  | nil => simp [uniqueFirstAux]
  | cons b bs ih =>
    unfold uniqueFirstAux
    by_cases hb : b ∈ seen
    · rw [if_pos hb, ih seen]
      constructor
      · rintro ⟨h1, h2⟩
        exact ⟨List.mem_cons_of_mem _ h1, h2⟩
      · rintro ⟨h1, h2⟩
        rcases List.mem_cons.mp h1 with rfl | h1
        · exact absurd hb h2
        · exact ⟨h1, h2⟩
    · rw [if_neg hb]
      constructor
      · intro h
        rcases List.mem_cons.mp h with rfl | h
        · exact ⟨List.mem_cons_self a bs, hb⟩
        · obtain ⟨h1, h2⟩ := (ih (b :: seen)).mp h
          exact ⟨List.mem_cons_of_mem _ h1,
            fun hc => h2 (List.mem_cons_of_mem _ hc)⟩
      · rintro ⟨h1, h2⟩
        rcases List.mem_cons.mp h1 with rfl | h1
        · exact List.mem_cons_self a _
        · by_cases hab : a = b
          · subst hab
            exact List.mem_cons_self a _
          · exact List.mem_cons_of_mem _
              ((ih (b :: seen)).mpr ⟨h1, by simp [hab, h2]⟩)

theorem uniqueFirstAux_nodup (seen l : List Nat) :
    (uniqueFirstAux seen l).Nodup := by
  induction l generalizing seen with
  | nil => simp [uniqueFirstAux]
  | cons b bs ih =>
    unfold uniqueFirstAux
    by_cases hb : b ∈ seen
    · rw [if_pos hb]
      exact ih seen
    · rw [if_neg hb]
      refine List.nodup_cons.mpr ⟨?_, ih (b :: seen)⟩
      intro hc
      obtain ⟨-, h2⟩ := (uniqueFirstAux_mem (b :: seen) bs b).mp hc
      exact h2 (List.mem_cons_self b seen)

end UniqueFirstLemmas

set_option maxRecDepth 10000 in
/-- C7: the selectable years are exactly the distinct calendar years present
in the datetime column, sorted ascending and without duplicates; the
selectable months and days are the full domains `1..12` and `1..31`
regardless of the data; and the selectable times are the 288 five-minute
increments of a 24-hour clock from `"00:00:00"` to `"23:55:00"`. -/
theorem offered_domains_spec (t : NormTable) :
    (yearsOffered t).Sorted (· ≤ ·)
    ∧ (yearsOffered t).Nodup
    ∧ (∀ y, y ∈ yearsOffered t ↔
        y ∈ t.rows.map (rowYear (List.indexOf "datetime" t.headers)))
    ∧ (∀ m, m ∈ monthsOffered ↔ 1 ≤ m ∧ m ≤ 12)
    ∧ (∀ d, d ∈ daysOffered ↔ 1 ≤ d ∧ d ≤ 31)
    ∧ generate_time_options.length = 288
    ∧ generate_time_options.head? = some "00:00:00"
    ∧ generate_time_options.getLast? = some "23:55:00"
    ∧ (∀ x, x ∈ generate_time_options ↔
        ∃ h2 k, h2 < 24 ∧ k < 12
          ∧ x = pad2 h2 ++ ":" ++ pad2 (5 * k) ++ ":00") := by
  refine ⟨List.sorted_insertionSort _ _, ?_, ?_, ?_, ?_, by decide, by decide,
    by decide, ?_⟩
  · exact ((List.perm_insertionSort _ _).nodup_iff).mpr
      (uniqueFirstAux_nodup [] _)
  · intro y
    unfold yearsOffered uniqueFirst
    rw [(List.perm_insertionSort _ _).mem_iff, uniqueFirstAux_mem]
    simp
  · intro m
    simp only [monthsOffered, List.mem_range']
    constructor
    · rintro ⟨i, hi, rfl⟩
      omega
    · intro h
      exact ⟨m - 1, by omega, by omega⟩
  · intro d
    simp only [daysOffered, List.mem_range']
    constructor
    · rintro ⟨i, hi, rfl⟩
      omega
    · intro h
      exact ⟨d - 1, by omega, by omega⟩
  · intro x
    unfold generate_time_options
    simp only [List.mem_flatMap, List.mem_map, List.mem_range, List.mem_range']
    constructor
    · rintro ⟨h2, hh, minute, ⟨k, hk, rfl⟩, rfl⟩
      exact ⟨h2, k, hh, hk, by rw [Nat.zero_add]⟩
    · rintro ⟨h2, k, hh, hk, rfl⟩
      exact ⟨h2, hh, 5 * k, ⟨k, hk, (Nat.zero_add _).symm⟩, rfl⟩

/-- C9: an upload whose declared size exceeds `300 * 1024 * 1024` bytes is
rejected before any parsing — the outcome is the oversize rejection
whatever the content parses to, and no table (not even a partial one) is
produced. -/
theorem oversize_reject_spec (parseTs : String → Option DT) (size : Nat)
    (hs : size > 300 * 1024 * 1024) :
    (∀ content,
      historical_data parseTs (some ⟨size, content⟩) = .oversizeRejected)
    ∧ (∀ content t,
        historical_data parseTs (some ⟨size, content⟩) ≠ .proceeded t) := by
  have h1 : ∀ content,
      historical_data parseTs (some ⟨size, content⟩) = .oversizeRejected := by
    intro content
    simp [historical_data, hs]
  refine ⟨h1, fun content t hc => ?_⟩
  rw [h1 content] at hc
  exact PipelineResult.noConfusion hc

/-- Witness for C9: a 300 MiB + 1 byte upload is rejected even though its
content parses fine. -/
theorem oversize_reject_spec_witness :
    historical_data tsEx (some ⟨300 * 1024 * 1024 + 1, some rawEx3⟩)
      = .oversizeRejected :=
  (oversize_reject_spec tsEx (300 * 1024 * 1024 + 1) (by decide)).1 (some rawEx3)

/-- C6: geo-sanitization reports missing columns exactly when a latitude or
longitude column is absent, and, when both are present, reports
no-valid-points exactly when no row survives numeric coercion and the
inclusive range check `-90 ≤ latitude ≤ 90`, `-180 ≤ longitude ≤ 180`; the
two failure statuses are distinct: one out-of-range row yields
no-valid-points while an absent longitude column yields missing-columns,
and an all-`"N/A"` table yields no-valid-points. -/
theorem geo_sanitize_spec (parseNum : String → Option Rat) (t : NormTable) :
    ((plot_folium_map_with_geojson parseNum t).1 = .missingColumns ↔
      ¬("longitude" ∈ t.headers ∧ "latitude" ∈ t.headers))
    ∧ (("longitude" ∈ t.headers ∧ "latitude" ∈ t.headers) →
        ((plot_folium_map_with_geojson parseNum t).1 = .noValidPoints ↔
          ∀ r ∈ geoCoerceRows parseNum t,
            geoRowOk (List.indexOf "latitude" t.headers)
              (List.indexOf "longitude" t.headers) r = false))
    ∧ (plot_folium_map_with_geojson pnEx tLat91).1 = .noValidPoints
    ∧ (plot_folium_map_with_geojson pnEx tNoLong).1 = .missingColumns
    ∧ (plot_folium_map_with_geojson pnEx tNA).1 = .noValidPoints := by
  refine ⟨?_, ?_, by decide, by decide, by decide⟩
  · by_cases hcols : ("longitude" ∈ t.headers ∧ "latitude" ∈ t.headers)
    · simp only [plot_folium_map_with_geojson, if_pos hcols]
      constructor
      · intro h
        split at h <;> simp at h
      · intro h
        exact absurd hcols h
    · simp only [plot_folium_map_with_geojson, if_neg hcols]
      simp [hcols]
  · intro hcols
    simp only [plot_folium_map_with_geojson, if_pos hcols]
    by_cases he : (geoSurvivors parseNum t).isEmpty = true
    · rw [if_pos he]
      have hnil : geoSurvivors parseNum t = [] := List.isEmpty_iff.mp he
      unfold geoSurvivors at hnil
      rw [List.filter_eq_nil_iff] at hnil
      constructor
      · intro _ r hr
        cases hb : geoRowOk (List.indexOf "latitude" t.headers)
            (List.indexOf "longitude" t.headers) r with
        | false => rfl
        | true => exact absurd hb (hnil r hr)
      · intro _
        rfl
    · rw [if_neg he]
      constructor
      · intro h
        simp at h
      · intro hall
        exfalso
        apply he
        rw [List.isEmpty_iff]
        unfold geoSurvivors
        rw [List.filter_eq_nil_iff]
        intro r hr
        rw [hall r hr]
        simp

/-- Witness for C6: on a one-row table with valid coordinates, both columns
are present, so the outcome is not the missing-columns status. -/
theorem geo_sanitize_spec_witness :
    ¬((plot_folium_map_with_geojson pnEx tGood).1 = .missingColumns) :=
  fun h => absurd ((geo_sanitize_spec pnEx tGood).1.mp h) (by decide)

theorem getD_map_getD (f : List Value → List Value)
    (rows : List (List Value)) (k : Nat) (hk : k < rows.length) :
    (rows.map f).getD k [] = f (rows.getD k []) := by
  rw [List.getD_eq_getElem _ _ (by simpa using hk), List.getElem_map,
    List.getD_eq_getElem _ _ hk]

theorem getD_mapIdx_of_eq (r : List Value) (g : Nat → Value → Value)
    (j : Nat) (hg : ∀ v, g j v = v) :
    (r.mapIdx g).getD j Value.na = r.getD j Value.na := by
  by_cases hj : j < r.length
  · rw [List.getD_eq_getElem _ _ (by simpa [List.length_mapIdx] using hj),
      List.getElem_mapIdx, List.getD_eq_getElem _ _ hj, hg]
  · rw [List.getD_eq_getElem?_getD, List.getD_eq_getElem?_getD,
      List.getElem?_eq_none
        (by simpa [List.length_mapIdx] using Nat.le_of_not_lt hj),
      List.getElem?_eq_none (Nat.le_of_not_lt hj)]

/-- C8 (amended: every row and every non-geo cell of the caller's table is
retained, but its latitude/longitude cells are overwritten in place with
their numeric coercions): after the geo step the caller's table has the
same headers, the same number of rows in the same order, and unchanged
values outside the latitude/longitude columns. -/
theorem geo_frame_spec (parseNum : String → Option Rat) (t : NormTable)
    (hcols : "longitude" ∈ t.headers ∧ "latitude" ∈ t.headers) :
    (plot_folium_map_with_geojson parseNum t).2.headers = t.headers
    ∧ (plot_folium_map_with_geojson parseNum t).2.rows.length = t.rows.length
    ∧ (∀ k j, k < t.rows.length →
        j ≠ List.indexOf "latitude" t.headers →
        j ≠ List.indexOf "longitude" t.headers →
        ((plot_folium_map_with_geojson parseNum t).2.rows.getD k []).getD j
            Value.na
          = (t.rows.getD k []).getD j Value.na) := by
  have h2 : (plot_folium_map_with_geojson parseNum t).2
      = ⟨t.headers, geoCoerceRows parseNum t⟩ := by
    simp only [plot_folium_map_with_geojson, if_pos hcols]
    split <;> rfl
  rw [h2]
  refine ⟨rfl, by simp [geoCoerceRows], ?_⟩
  intro k j hk hjl hjg
  show (List.getD (geoCoerceRows parseNum t) k []).getD j Value.na = _
  unfold geoCoerceRows
  rw [getD_map_getD _ t.rows k hk]
  exact getD_mapIdx_of_eq _ _ _ (fun v => if_neg (fun hc => hc.elim hjl hjg))

/-- Witness for C8 at the one-row table `tGood`. -/
theorem geo_frame_spec_witness :
    (plot_folium_map_with_geojson pnEx tGood).2.headers = tGood.headers :=
  (geo_frame_spec pnEx tGood (by decide)).1

/-- C8 counterexample: the claim says the caller's latitude/longitude
values are unchanged after sanitization, but the in-place coercion of src
lines 77-78 rewrites them: the latitude cell `"N/A"` of `tNA` comes back as
the missing marker. -/
theorem geo_frame_changed :
    ((plot_folium_map_with_geojson pnEx tNA).2.rows.getD 0 []).getD 1 Value.na
      = Value.na
    ∧ (tNA.rows.getD 0 []).getD 1 Value.na = Value.str "N/A"
    ∧ Value.na ≠ Value.str "N/A" := by
  exact ⟨by decide, by decide, by decide⟩

end HistData
